import Mathlib

/-!
Shallow embedding of the `option_writer` repository
(`option_writer.py`, `telegram_alert.py`) and proofs about it.

Modelling conventions:
* Python strings are `List Char`; Python numbers (ints and floats) are
  modelled as exact rationals `ℚ`.
* Dict/JSON payloads are modelled by structures whose fields are `Option`s
  where the code can observe a missing key; the wrapper keys
  `props`/`pageProps`/`data` that the code only passes through are elided
  (their absence behaves like any other missing key and raises the same way).
* Exceptions are modelled with explicit error values (`PyErr`); a function
  that can let an exception escape returns it in its result.
* Side effects (HTTP requests, `alert_manager.send` calls, log lines,
  buffer mutation) are modelled by returning the lists of performed
  requests/sends/events and the new state.
-/

namespace OptionWriter

/-- Python exceptions that can escape the modelled functions. -/
inductive PyErr where
  /-- A `TypeError` from subscripting `None` / `KeyError` from a missing key
  in the logging f-string of `process_expiry`. -/
  | typeError
  /-- An `IndexError` from `option_chain[0]` on an empty chain. -/
  | indexError
  /-- A `ValueError` from `json.loads` on a malformed `__NEXT_DATA__` payload. -/
  | valueError
deriving DecidableEq, Repr

/-- Alert messages and other Python strings. -/
abbrev Msg := List Char

instance {e a : Type} [DecidableEq e] [DecidableEq a] :
    DecidableEq (Except e a) := fun x y =>
  match x, y with
  | .error u, .error v => decidable_of_iff (u = v) (by simp)
  | .ok u, .ok v => decidable_of_iff (u = v) (by simp)
  | .error _, .ok _ => isFalse (by simp)
  | .ok _, .error _ => isFalse (by simp)

/-! ## Alert batcher: `flush_alert_buffer_global` (option_writer.py lines 17-40) -/

/-- The `for msg in alert_buffer` loop of `flush_alert_buffer_global`,
returning the successive batches handed to `alert_manager.send`, in order.
`cur`/`curLen` are the loop variables `current_batch`/`current_len`; the
`[]` case is the trailing `if current_batch: ... send(...)`. -/
def flushAux (maxLen : Nat) : List Msg → List Msg → Nat → List (List Msg)
  | [], cur, _ => if cur.isEmpty then [] else [cur]
  | msg :: rest, cur, curLen =>
    if maxLen < curLen + msg.length then
      cur :: flushAux maxLen rest [msg] msg.length
    else
      flushAux maxLen rest (cur ++ [msg]) (curLen + msg.length)

/-- Batches sent by `flush_alert_buffer_global` (empty buffer returns early,
sending nothing). -/
def flushBatches (buffer : List Msg) (maxLen : Nat) : List (List Msg) :=
  if buffer.isEmpty then [] else flushAux maxLen buffer [] 0

/-- Python's `"\n\n".join`. -/
def joinBatch : List Msg → Msg
  | [] => []
  | [m] => m
  | m :: m' :: rest => m ++ '\n' :: '\n' :: joinBatch (m' :: rest)

/-- Embedding of `flush_alert_buffer_global(alert_manager, alert_buffer, max_len)`:
first component is the list of strings handed to `alert_manager.send`, in
order; second component is the buffer after the call (`alert_buffer.clear()`
runs unless the early return for an empty buffer was taken). -/
def flush_alert_buffer_global (buffer : List Msg) (maxLen : Nat) :
    List Msg × List Msg :=
  ((flushBatches buffer maxLen).map joinBatch,
   if buffer.isEmpty then buffer else [])

/-- Python's `s.split("\n\n")`: split on non-overlapping occurrences of the
two-character joiner, scanning left to right; `acc` holds the (reversed)
characters of the current piece. -/
def splitOnJoiner : List Char → List Char → List Msg
  | [], acc => [acc.reverse]
  | [c], acc => [(c :: acc).reverse]
  | c1 :: c2 :: rest, acc =>
    if c1 = '\n' ∧ c2 = '\n' then acc.reverse :: splitOnJoiner rest []
    else splitOnJoiner (c2 :: rest) (c1 :: acc)

/-! ## Strike selection: `bisect_left` and `find_closest_strike`
(option_writer.py lines 116-133) -/

/-- Live data of one side (`pe`/`ce`) of an option contract: the
`liveData` dict read with `.get("ltp", 0)` / `.get("oi", 0)`, and the
`longDisplayName`. -/
structure Side where
  ltp : Option ℚ
  oi : Option ℚ
  longDisplayName : Msg
deriving DecidableEq, Repr

/-- One entry of `optionContracts`: the strike (in hundredths, as served by
the page) and the optional put/call sides (`none` models both a missing
`pe`/`ce` key and a `None` value, which the code treats alike via
`.get("pe")`). -/
structure Contract where
  strikePrice : ℚ
  pe : Option Side
  ce : Option Side
deriving DecidableEq, Repr

/-- The strike of a contract: `c["strikePrice"] / 100`. -/
def strikeOf (c : Contract) : ℚ := c.strikePrice / 100

/-- CPython's `bisect_left` loop
(`while lo < hi: mid = (lo+hi)//2; if a[mid] < x: lo = mid+1 else: hi = mid`).
The `fuel` argument only bounds the iteration count so the recursion is
structural; `hi - lo` strictly decreases each iteration, so any
`fuel ≥ hi - lo` gives the loop's exact result. -/
def bisectGo (a : List ℚ) (x : ℚ) : Nat → Nat → Nat → Nat
  | 0, lo, _ => lo
  | fuel + 1, lo, hi =>
    if lo < hi then
      let mid := (lo + hi) / 2
      if a.getD mid 0 < x then bisectGo a x fuel (mid + 1) hi
      else bisectGo a x fuel lo mid
    else lo

/-- Embedding of `bisect_left(a, x)` with `lo = 0`, `hi = len(a)`; `a.length` iterations
always suffice. -/
def bisect_left (a : List ℚ) (x : ℚ) : Nat := bisectGo a x a.length 0 a.length

/-- Embedding of `OptionChainScraper.find_closest_strike(option_chain, target_price)`.
Returns `none` exactly when the code would raise an `IndexError`
(`option_chain[0]` on an empty chain). -/
def find_closest_strike (chain : List Contract) (target : ℚ) : Option Contract :=
  let strikes := chain.map strikeOf
  let pos := bisect_left strikes target
  if pos = 0 then chain.head?
  else if pos = strikes.length then chain.getLast?
  else
    match chain[pos - 1]?, chain[pos]? with
    | some before, some after =>
      if |strikeOf before - target| ≤ |strikeOf after - target| then some before
      else some after
    | _, _ => none

/-! ## Number and message rendering

Python renders numbers into f-strings with `str`; since all numerics are
modelled as exact rationals, they are rendered as exact rationals here (no
claim depends on the digits of a rendered number). -/

/-- Decimal digits of a natural number. -/
def natChars (n : Nat) : List Char := Nat.toDigits 10 n

/-- Decimal rendering of an integer. -/
def intChars (i : ℤ) : List Char :=
  if i < 0 then '-' :: natChars i.natAbs else natChars i.natAbs

/-- Rendering of a rational. -/
def ratChars (q : ℚ) : List Char :=
  if q.den = 1 then intChars q.num else intChars q.num ++ '/' :: natChars q.den

/-! ## Page fetcher: `fetch_page_json` (option_writer.py lines 72-92) -/

/-- The scraper's `BASE_URL` constant. -/
def BASE_URL : Msg := "https://groww.in/options/".toList

/-- The URL built at the top of `fetch_page_json`:
`BASE_URL + stock_id`, with `?expiry=` appended when an expiry is given. -/
def buildUrl (stock_id : Msg) (expiry : Option Msg) : Msg :=
  BASE_URL ++ stock_id ++
    (match expiry with
     | none => []
     | some e => "?expiry=".toList ++ e)

/-- The text of a found `__NEXT_DATA__` script tag, as seen by `json.loads`:
either it parses (`none` models a falsy payload such as an empty dict) or
`json.loads` raises. -/
inductive ScriptContent (α : Type) where
  | parsed (v : Option α)
  | malformed
deriving DecidableEq

/-- A successfully fetched HTML page: `nextData` is the
`soup.find("script", id="__NEXT_DATA__")` result. -/
structure HttpPage (α : Type) where
  nextData : Option (ScriptContent α)
deriving DecidableEq

/-- Embedding of `OptionChainScraper.fetch_page_json(expiry)`. The `http` argument is the
outcome of `requests.get` (`none` models a raised/raise_for_status-failed
request). Returns the `self.url` that was set, the list of HTTP requests
issued (by URL, in order), and the result: `.ok none` is a falsy empty dict,
`.error` a propagating `json.loads` exception. -/
def fetch_page_json (α : Type) (stock_id : Msg) (expiry : Option Msg)
    (http : Option (HttpPage α)) : Msg × List Msg × Except PyErr (Option α) :=
  let url := buildUrl stock_id expiry
  (url, [url],
    match http with
    | none => .ok none
    | some pg =>
      match pg.nextData with
      | none => .ok none
      | some (.parsed v) => .ok v
      | some .malformed => .error .valueError)

/-! ## Stock initialization: `initialize_stock_data`
(option_writer.py lines 94-114) -/

/-- The fields of the main-page payload read by `initialize_stock_data`.
`liveData` is `company["liveData"]`; the `aggregatedDetails` wrapper of the
option chain is folded into `optionChain` (its absence raises the same
`KeyError`-derived `RuntimeError` as any other missing key). -/
structure LiveQuote where
  ltp : Option ℚ
deriving DecidableEq

/-- The `data["company"]` payload. -/
structure Company where
  name : Option Msg
  liveData : Option LiveQuote
deriving DecidableEq

/-- The `data["optionChain"]["aggregatedDetails"]` payload. -/
structure AggDetails where
  lotSize : Option ℚ
  expiryDates : Option (List Msg)
deriving DecidableEq

/-- The parsed `__NEXT_DATA__` payload of the main page, restricted to the
keys the initializer reads. -/
structure MainPayload where
  company : Option Company
  optionChain : Option AggDetails
deriving DecidableEq

/-- Why `initialize_stock_data` raised its `RuntimeError`: falsy payload
("no data returned") or a `KeyError` for a missing key. -/
inductive InitFail where
  | noData
  | missingKey (k : Msg)
deriving DecidableEq

/-- The stock attributes set by a successful `initialize_stock_data`. -/
structure StockData where
  stock_name : Msg
  ltp : ℚ
  lot_size : ℚ
  expiry_dates : List Msg
deriving DecidableEq

/-- Outcome of `initialize_stock_data`: success, a raised `RuntimeError`
(which `run` catches), or an uncaught exception (e.g. `json.loads` raising
inside `fetch_page_json`, which `run`'s `except RuntimeError` misses). -/
inductive InitResult where
  | ok (sd : StockData)
  | runtimeError (f : InitFail)
  | uncaught (e : PyErr)
deriving DecidableEq

/-- A required-key read: missing key raises `KeyError k`. -/
def req {β : Type} (o : Option β) (k : Msg) : Except InitFail β :=
  match o with
  | none => .error (.missingKey k)
  | some b => .ok b

/-- The `try` block of `initialize_stock_data`, reading the payload's keys
in source order. -/
def parseStock (payload : Option MainPayload) : Except InitFail StockData :=
  match payload with
  | none => .error .noData
  | some p => do
    let comp ← req p.company ("company".toList)
    let agg ← req p.optionChain ("optionChain".toList)
    let nm ← req comp.name ("name".toList)
    let lq ← req comp.liveData ("liveData".toList)
    let theLtp ← req lq.ltp ("ltp".toList)
    let ls ← req agg.lotSize ("lotSize".toList)
    let eds ← req agg.expiryDates ("expiryDates".toList)
    pure ⟨nm, theLtp, ls, eds⟩

/-- Embedding of `OptionChainScraper.initialize_stock_data`: fetch the main page, then
parse it. Returns the `self.url` that was set and the outcome. -/
def initialize_stock_data (stock_id : Msg) (http : Option (HttpPage MainPayload)) :
    Msg × InitResult :=
  let (url, _reqs, fetched) := fetch_page_json MainPayload stock_id none http
  (url,
    match fetched with
    | .error e => .uncaught e
    | .ok payload =>
      match parseStock payload with
      | .error f => .runtimeError f
      | .ok sd => .ok sd)

/-! ## Scraper state and `process_expiry` (option_writer.py lines 48-70, 135-176) -/

/-- The mutable attributes of an `OptionChainScraper`. -/
structure ScraperState where
  stock_id : Msg
  min_premium : ℚ
  min_oi : ℚ
  premium_lot_size : Option ℚ
  use_global_buffer : Bool
  stock_name : Msg
  ltp : ℚ
  lot_size : ℚ
  expiry_dates : List Msg
  url : Msg
  buffer : List Msg
deriving DecidableEq

/-- Embedding of `OptionChainScraper.__init__`: `min_premium if min_premium else 4000`
(Python falsiness: `None` and `0` both fall back); the not-yet-fetched
attributes start as `None`, modelled by neutral defaults; the buffer aliases
the global buffer when `use_global_buffer` is set, else starts empty. -/
def mkScraper (stock_id : Msg) (premium_lot_size : Option ℚ)
    (min_premium : Option ℚ) (min_oi : ℚ) (useGlobal : Bool)
    (globalBuffer : List Msg) : ScraperState :=
  { stock_id := stock_id
    min_premium :=
      match min_premium with
      | none => 4000
      | some q => if q = 0 then 4000 else q
    min_oi := min_oi
    premium_lot_size := premium_lot_size
    use_global_buffer := useGlobal
    stock_name := []
    ltp := 0
    lot_size := 0
    expiry_dates := []
    url := []
    buffer := if useGlobal then globalBuffer else [] }

/-- Line 159: `self.premium_lot_size if self.premium_lot_size else 2 * self.lot_size`
(`None` and `0` are falsy). -/
def effectiveLot (st : ScraperState) : ℚ :=
  match st.premium_lot_size with
  | none => 2 * st.lot_size
  | some q => if q = 0 then 2 * st.lot_size else q

/-- The alert f-string of lines 171/175. -/
def renderAlert (stock_name : Msg) (theLtp : ℚ) (expiry : Msg) (name : Msg)
    (premium lot price oi : ℚ) (url : Msg) : Msg :=
  "🚨 ".toList ++ stock_name ++ " LTP ".toList ++ ratChars theLtp ++
  " | Expiry ".toList ++ expiry ++ " | ".toList ++ name ++
  " | Premium ".toList ++ ratChars premium ++ " | Lot ".toList ++ ratChars lot ++
  " | Price ".toList ++ ratChars price ++ " | OI ".toList ++ ratChars oi ++
  " | ".toList ++ url

/-- The pipeline stages of `process_expiry`, in the order the code reaches
them: HTTP fetch (line 138), payload parse (line 143), nearest-strike
selection (lines 149-150), threshold check (lines 170/174), buffer append
(lines 172/176). -/
inductive Step where
  | fetch
  | parse
  | select
  | check
  | append
deriving DecidableEq, Repr

/-- Embedding of `OptionChainScraper.process_expiry(expiry_date)`. Input `http` is the
outcome of the page request for this expiry. Returns the trace of stages
reached, the scraper state after the call (mutations persist even when an
exception is raised), and the escaping exception, if any:
* a falsy payload logs a warning and returns early;
* an empty contract list raises `IndexError` inside `find_closest_strike`;
* a selected contract without its `pe` (put) / `ce` (call) side raises in
  the logging f-string of lines 163-167 before any threshold check. -/
def process_expiry (st : ScraperState) (expiry : Msg)
    (http : Option (HttpPage (List Contract))) :
    List Step × ScraperState × Option PyErr :=
  let fr := fetch_page_json (List Contract) st.stock_id (some expiry) http
  let st0 := { st with url := fr.1 }
  match fr.2.2 with
  | .error e => ([.fetch], st0, some e)
  | .ok none => ([.fetch], st0, none)
  | .ok (some chain) =>
    let target_put := (905 / 1000 : ℚ) * st0.ltp
    let target_call := (1095 / 1000 : ℚ) * st0.ltp
    match find_closest_strike chain target_put,
          find_closest_strike chain target_call with
    | some closest_put, some closest_call =>
      let put_ltp := match closest_put.pe with | some s => s.ltp.getD 0 | none => 0
      let call_ltp := match closest_call.ce with | some s => s.ltp.getD 0 | none => 0
      let put_oi := match closest_put.pe with | some s => s.oi.getD 0 | none => 0
      let call_oi := match closest_call.ce with | some s => s.oi.getD 0 | none => 0
      let plot := effectiveLot st0
      let st1 := { st0 with premium_lot_size := some plot }
      let put_premium := plot * put_ltp
      let call_premium := plot * call_ltp
      match closest_put.pe, closest_call.ce with
      | some peSide, some ceSide =>
        let putCond := st1.min_oi < put_oi ∧ st1.min_premium < put_premium
        let callCond := st1.min_oi < call_oi ∧ st1.min_premium < call_premium
        let buf1 :=
          if putCond then
            st1.buffer ++ [renderAlert st1.stock_name st1.ltp expiry
              peSide.longDisplayName put_premium plot put_ltp put_oi st1.url]
          else st1.buffer
        let buf2 :=
          if callCond then
            buf1 ++ [renderAlert st1.stock_name st1.ltp expiry
              ceSide.longDisplayName call_premium plot call_ltp call_oi st1.url]
          else buf1
        ([Step.fetch, Step.parse, Step.select, Step.check] ++
           (if putCond then [Step.append] else []) ++
           (if callCond then [Step.append] else []),
         { st1 with buffer := buf2 }, none)
      | _, _ => ([.fetch, .parse, .select], st1, some .typeError)
    | _, _ => ([.fetch, .parse], st0, some .indexError)

/-! ## `OptionChainScraper.run` (option_writer.py lines 178-205) -/

/-- Observable actions of `run`, in order. -/
inductive RunEvent where
  | sendMsg (m : Msg)
  | procExpiry (e : Msg)
deriving DecidableEq

/-- The message `run` sends when initialization fails: the outer f-string of
line 188 wrapping the `RuntimeError` text of lines 99/114 (the quoting that
Python's `KeyError` repr adds around the key name is elided). -/
def renderInitFail (stock_id : Msg) (f : InitFail) : Msg :=
  "❌ Failed to initialize ".toList ++ stock_id ++ ": ".toList ++
    (match f with
     | .noData =>
       "⚠️ Failed to initialize ".toList ++ stock_id ++ ", no data returned".toList
     | .missingKey k =>
       "⚠️ Could not parse stock data for ".toList ++ stock_id ++
         ": Missing ".toList ++ k)

/-- The `expiry_error` fragment of line 197 for one caught exception. -/
def renderExpiryErr (e : PyErr) : Msg :=
  "Exception during process_expiry(): ".toList ++
    (match e with
     | .typeError => "TypeError".toList
     | .indexError => "IndexError".toList
     | .valueError => "ValueError".toList)

/-- The HTTP world a scraper runs against: outcome of the main-page request
and of each per-expiry request. -/
structure World where
  mainHttp : Option (HttpPage MainPayload)
  expiryHttp : Msg → Option (HttpPage (List Contract))

/-- The `for expiry in self.expiry_dates` loop of `run`: every exception
from `process_expiry` is caught and appended to the accumulated
`expiry_error` string; state mutations made before a raise persist. -/
def runExpiryLoop (w : World) : List Msg → ScraperState → List RunEvent → Msg →
    List RunEvent × ScraperState × Msg
  | [], st, evs, errAcc => (evs, st, errAcc)
  | e :: rest, st, evs, errAcc =>
    let r := process_expiry st e (w.expiryHttp e)
    match r.2.2 with
    | none => runExpiryLoop w rest r.2.1 (evs ++ [.procExpiry e]) errAcc
    | some er => runExpiryLoop w rest r.2.1 (evs ++ [.procExpiry e]) (errAcc ++ renderExpiryErr er)

/-- Embedding of `OptionChainScraper.run()`: initialize (failure sends one message and
returns; an uncaught exception escapes), process every expiry, send the
accumulated expiry errors if any, and flush the scraper's own buffer unless
it uses the global one. Returns (events, final state, escaping exception). -/
def run (st : ScraperState) (w : World) : List RunEvent × ScraperState × Option PyErr :=
  match initialize_stock_data st.stock_id w.mainHttp with
  | (url, .uncaught e) => ([], { st with url := url }, some e)
  | (url, .runtimeError f) =>
    ([.sendMsg (renderInitFail st.stock_id f)], { st with url := url }, none)
  | (url, .ok sd) =>
    let st0 : ScraperState :=
      { st with
        url := url
        stock_name := sd.stock_name
        ltp := sd.ltp
        lot_size := sd.lot_size
        expiry_dates := sd.expiry_dates }
    let lr := runExpiryLoop w sd.expiry_dates st0 [] []
    let evs1 := lr.1 ++ (if lr.2.2.isEmpty then [] else [.sendMsg lr.2.2])
    if lr.2.1.use_global_buffer then (evs1, lr.2.1, none)
    else
      let fl := flush_alert_buffer_global lr.2.1.buffer 3900
      (evs1 ++ fl.1.map RunEvent.sendMsg, { lr.2.1 with buffer := fl.2 }, none)

/-! ## Driver (option_writer.py lines 208-278) -/

/-- The fixed ticker list of `trackers_qty`, in source order. -/
def trackers_qty : List (Msg × List ℚ) := [
  ("nifty".toList, [780, 30000]),
  ("infosys-ltd".toList, [800]),
  ("hindustan-unilever-ltd".toList, [600]),
  ("reliance-industries-ltd".toList, [1000]),
  ("state-bank-of-india".toList, [1500]),
  ("tata-consultancy-services-ltd".toList, [350]),
  ("wipro-ltd".toList, [6000]),
  ("itc-ltd".toList, [3200]),
  ("bharti-airtel-ltd".toList, [950]),
  ("icici-bank-ltd".toList, [1400]),
  ("hdfc-bank-ltd".toList, [2200]),
  ("axis-bank-ltd".toList, [1250]),
  ("maruti-suzuki-india-ltd".toList, []),
  ("nestle-india-ltd".toList, []),
  ("apollo-hospitals-enterprise-ltd".toList, []),
  ("sun-pharmaceutical-industries-ltd".toList, []),
  ("coal-india-ltd".toList, []),
  ("grasim-industries-ltd".toList, []),
  ("dr-reddys-laboratories-ltd".toList, []),
  ("titan-company-ltd".toList, []),
  ("hdfc-standard-life-insurance-co-ltd".toList, []),
  ("sbi-life-insurance-company-ltd".toList, []),
  ("asian-paints-ltd".toList, []),
  ("ultratech-cement-ltd".toList, []),
  ("avenue-supermarts-ltd".toList, []),
  ("bajaj-auto-ltd".toList, []),
  ("bajaj-finserv-ltd".toList, []),
  ("britannia-industries-ltd".toList, []),
  ("bosch-ltd".toList, []),
  ("cipla-ltd".toList, []),
  ("dabur-india-ltd".toList, []),
  ("divis-laboratories-ltd".toList, []),
  ("godrej-consumer-products-ltd".toList, []),
  ("hero-motocorp-ltd".toList, []),
  ("jsw-steel-ltd".toList, []),
  ("lupin-ltd".toList, []),
  ("mrf-ltd".toList, []),
  ("marico-ltd".toList, []),
  ("page-industries-ltd".toList, []),
  ("sbi-cards-payment-services-ltd".toList, []),
  ("srf-ltd".toList, []),
  ("shree-cement-ltd".toList, []),
  ("tech-mahindra-ltd".toList, []),
  ("torrent-pharmaceuticals-ltd".toList, []),
  ("united-spirits-ltd".toList, []),
  ("colgatepalmolive-india-ltd".toList, []),
  ("icici-lombard-general-insurance-co-ltd".toList, []),
  ("power-grid-corporation-of-india-ltd".toList, []),
  ("tata-global-beverages-ltd".toList, [])]

/-- Lines 263-266: `qty[0] if len(qty) > 0 else None`, for `nifty` only. -/
def driverLot (t : Msg) (qty : List ℚ) : Option ℚ :=
  if t = "nifty".toList then qty[0]? else none

/-- Lines 268-271: `qty[1] if len(qty) > 1 else None`, for `nifty` only. -/
def driverMinPremium (t : Msg) (qty : List ℚ) : Option ℚ :=
  if t = "nifty".toList then qty[1]? else none

/-- Observable actions of the driver, in order: scraper start/completion
log lines, direct sends made during a scraper's `run`, and the sends of the
final global flush. -/
inductive DrvEvent where
  | start (t : Msg)
  | sendDirect (m : Msg)
  | done (t : Msg)
  | sendFlush (m : Msg)
deriving DecidableEq

/-- Driver view of a `run` event. -/
def toDrv : RunEvent → Option DrvEvent
  | .sendMsg m => some (.sendDirect m)
  | .procExpiry _ => none

/-- Result of the `__main__` block: the event trace, the final global
`ALERT_BUFFER`, and the uncaught exception that aborted the program, if
any (in which case the final flush never ran). -/
structure DriverResult where
  trace : List DrvEvent
  buffer : List Msg
  crashed : Option PyErr
deriving DecidableEq

/-- The `for tracker, qty in trackers_qty.items()` loop, threading the
global buffer, followed by the final `flush_alert_buffer_global`. -/
def driverLoop (worlds : Msg → World) :
    List (Msg × List ℚ) → List DrvEvent → List Msg → DriverResult
  | [], evs, buf =>
    let fl := flush_alert_buffer_global buf 3900
    { trace := evs ++ fl.1.map DrvEvent.sendFlush, buffer := fl.2, crashed := none }
  | (t, qty) :: rest, evs, buf =>
    let cfg := mkScraper t (driverLot t qty) (driverMinPremium t qty) 50 true buf
    let r := run cfg (worlds t)
    match r.2.2 with
    | some e =>
      { trace := evs ++ DrvEvent.start t :: (r.1.filterMap toDrv),
        buffer := r.2.1.buffer, crashed := some e }
    | none =>
      driverLoop worlds rest
        (evs ++ DrvEvent.start t :: (r.1.filterMap toDrv) ++ [DrvEvent.done t])
        r.2.1.buffer

/-- The `__main__` block. -/
def driver (worlds : Msg → World) : DriverResult :=
  driverLoop worlds trackers_qty [] []

/-! ## Alert transport: `TelegramAlert.send` (telegram_alert.py lines 28-38) -/

/-- Outcome of the `requests.post` call inside `TelegramAlert.send`: the
request raised, or returned a response with a status code and body. -/
inductive PostOutcome where
  | exn (e : Msg)
  | resp (status : Nat) (body : Msg)
deriving DecidableEq

/-- A log line emitted by `TelegramAlert.send`. -/
inductive LogEvent where
  | logError (m : Msg)
  | logDebug (m : Msg)
deriving DecidableEq

/-- Embedding of `TelegramAlert.send(message)`: the whole request/status check sits in a
`try` whose `except Exception` logs and falls through. Returns the log
lines and the escaping exception, if any. -/
def TelegramAlert_send (chat_id _message : Msg) (post : PostOutcome) :
    List LogEvent × Option PyErr :=
  match post with
  | .exn e => ([.logError ("Alert error: ".toList ++ e)], none)
  | .resp status body =>
    if status ≠ 200 then ([.logError ("Alert failed: ".toList ++ body)], none)
    else ([.logDebug ("Alert sent successfully to chat_id: ".toList ++ chat_id)], none)

/-- Is this driver event a send of batched (buffered) alerts? -/
def isFlushSend : DrvEvent → Bool
  | .sendFlush _ => true
  | _ => false

/-- The ticker of a scraper-start log event. -/
def startOf : DrvEvent → Option Msg
  | .start t => some t
  | _ => none

/-- The ticker of a scraper-completion log event. -/
def doneOf : DrvEvent → Option Msg
  | .done t => some t
  | _ => none

/-! ## Concrete test fixtures (used by witnesses and counterexamples) -/

/-- A scraper state as it stands right after a successful initialization:
LTP 100, lot size 100, default thresholds. -/
def testState : ScraperState :=
  { stock_id := "nifty".toList
    min_premium := 4000
    min_oi := 50
    premium_lot_size := none
    use_global_buffer := false
    stock_name := "NIFTY".toList
    ltp := 100
    lot_size := 100
    expiry_dates := []
    url := []
    buffer := [] }

/-- An expiry date string. -/
def testExpiry : Msg := "25-01-30".toList

/-- A contract at strike 100 with call-side data only (OI 1000, last price
100) and no put side. -/
def testContractNoPut : Contract :=
  ⟨10000, none, some ⟨some 100, some 1000, "NIFTY 100 CE".toList⟩⟩

/-- The put side of `testContractFull`. -/
def testPutSide : Side := ⟨some 50, some 1000, "NIFTY 90 PE".toList⟩

/-- The call side of `testContractFull`. -/
def testCallSide : Side := ⟨some 100, some 1000, "NIFTY 90 CE".toList⟩

/-- A contract at strike 90 carrying both sides. -/
def testContractFull : Contract := ⟨9000, some testPutSide, some testCallSide⟩

/-- An HTTP page whose `__NEXT_DATA__` script parses to the given
contract list. -/
def testPage (cs : List Contract) : HttpPage (List Contract) :=
  ⟨some (.parsed (some cs))⟩

/-! # Theorems -/

/-! ## Alert batcher lemmas -/

/-- Flattening the batches produced by the batching loop recovers exactly
`cur ++ msgs`: no message is dropped, duplicated or reordered. -/
theorem flushAux_flatten (maxLen : Nat) :
    ∀ (msgs cur : List Msg) (curLen : Nat),
      (flushAux maxLen msgs cur curLen).flatten = cur ++ msgs := by
  intro msgs
  induction msgs with
  | nil => intro cur curLen; cases cur <;> simp [flushAux]
  | cons m rest ih =>
    intro cur curLen
    simp only [flushAux]
    split
    · simp [ih]
    · rw [ih]; simp

/-- If every message fits in `maxLen` and the running batch does too, every
batch the loop emits has message lengths summing to at most `maxLen`. -/
theorem flushAux_sum_le (maxLen : Nat) :
    ∀ (msgs cur : List Msg) (curLen : Nat),
      (∀ m ∈ msgs, m.length ≤ maxLen) →
      curLen = (cur.map List.length).sum →
      curLen ≤ maxLen →
      ∀ b ∈ flushAux maxLen msgs cur curLen, (b.map List.length).sum ≤ maxLen := by
  intro msgs
  induction msgs with
  | nil =>
    intro cur curLen hm hce hcl b hb
    cases cur with
    | nil => simp [flushAux] at hb
    | cons a l =>
      simp [flushAux] at hb
      subst hb
      omega
  | cons m rest ih =>
    intro cur curLen hm hce hcl b hb
    simp only [flushAux] at hb
    split at hb
    · rcases List.mem_cons.mp hb with rfl | hb'
      · omega
      · exact ih [m] m.length (fun x hx => hm x (List.mem_cons_of_mem m hx))
          (by simp) (hm m (List.mem_cons_self m rest)) b hb'
    · exact ih (cur ++ [m]) (curLen + m.length)
        (fun x hx => hm x (List.mem_cons_of_mem m hx))
        (by simp [hce]) (by omega) b hb

/-- Length of a joined batch: the message lengths plus two characters per
joiner. -/
theorem joinBatch_length_le (b : List Msg) :
    (joinBatch b).length ≤ (b.map List.length).sum + 2 * (b.length - 1) := by
  induction b with
  | nil => simp [joinBatch]
  | cons m rest ih =>
    cases rest with
    | nil => simp [joinBatch]
    | cons m' rest' =>
      have hj : joinBatch (m :: m' :: rest') =
          m ++ '\n' :: '\n' :: joinBatch (m' :: rest') := rfl
      rw [hj]
      simp only [List.length_append, List.length_cons, List.map_cons,
        List.sum_cons] at *
      omega

/-- Flattening the batches of `flush_alert_buffer_global` recovers the
original buffer. -/
theorem flushBatches_flatten (buffer : List Msg) (maxLen : Nat) :
    (flushBatches buffer maxLen).flatten = buffer := by
  unfold flushBatches
  split
  · next h => simp_all [List.isEmpty_iff]
  · simpa using flushAux_flatten maxLen buffer [] 0

/-- The function `flush_alert_buffer_global` always leaves the buffer empty (the early
return happens only when it already is). -/
theorem flush_clears (buffer : List Msg) (maxLen : Nat) :
    (flush_alert_buffer_global buffer maxLen).2 = [] := by
  unfold flush_alert_buffer_global
  split
  · next h => simp_all [List.isEmpty_iff]
  · rfl

/-! ## C2 -/

/-- The claim C2 as stated is false: with `max_len = 5` and buffer
`["aa", "aa", "a"]` the loop keeps all three messages in one batch (their
lengths sum to 5), but the string handed to `send` is
`"aa\n\naa\n\na"` of length 9 > 5, because the running length ignores the
two-character `"\n\n"` joiners. -/
theorem C2_counterexample :
    ¬ ∀ s ∈ (flush_alert_buffer_global [['a', 'a'], ['a', 'a'], ['a']] 5).1,
        s.length ≤ 5 := by decide

/-- C2 (amended): provided every buffered message has length at most
`max_len`, every batch handed to the transport has message lengths summing
to at most `max_len`; the string handed to `send` is the batch joined with
`"\n\n"`, of length at most `max_len + 2 * (k - 1)` for a `k`-message
batch. -/
theorem C2_batches_within_limit (buffer : List Msg) (maxLen : Nat)
    (hm : ∀ m ∈ buffer, m.length ≤ maxLen) :
    ∀ s ∈ (flush_alert_buffer_global buffer maxLen).1,
      ∃ b ∈ flushBatches buffer maxLen, s = joinBatch b ∧
        (b.map List.length).sum ≤ maxLen ∧
        s.length ≤ maxLen + 2 * (b.length - 1) := by
  intro s hs
  rcases List.mem_map.mp hs with ⟨b, hb, rfl⟩
  refine ⟨b, hb, rfl, ?_, ?_⟩
  · unfold flushBatches at hb
    split at hb
    · simp at hb
    · exact flushAux_sum_le maxLen buffer [] 0 hm (by simp) (by omega) b hb
  · have h1 := joinBatch_length_le b
    have h2 : (b.map List.length).sum ≤ maxLen := by
      unfold flushBatches at hb
      split at hb
      · simp at hb
      · exact flushAux_sum_le maxLen buffer [] 0 hm (by simp) (by omega) b hb
    omega

/-- Witness for C2 (amended) at a concrete buffer. -/
theorem C2_batches_within_limit_witness :
    (∀ m ∈ ([['a', 'b'], ['c']] : List Msg), m.length ≤ 10) ∧
    ∀ s ∈ (flush_alert_buffer_global [['a', 'b'], ['c']] 10).1,
      ∃ b ∈ flushBatches [['a', 'b'], ['c']] 10, s = joinBatch b ∧
        (b.map List.length).sum ≤ 10 ∧
        s.length ≤ 10 + 2 * (b.length - 1) :=
  ⟨by decide, C2_batches_within_limit [['a', 'b'], ['c']] 10 (by decide)⟩

/-! ## C8 -/

/-- The claim C8 as stated is false: for the one-message buffer
`["a\n\nb"]` the single sent string is `"a\n\nb"`, and splitting it on the
`"\n\n"` joiner yields `["a", "b"]`, not the original message sequence —
a message containing the joiner is not recovered by splitting. -/
theorem C8_counterexample :
    ¬ ((((flush_alert_buffer_global [['a', '\n', '\n', 'b']] 3900).1.map
          (fun s => splitOnJoiner s [])).flatten = [['a', '\n', '\n', 'b']]) ∧
       (flush_alert_buffer_global [['a', '\n', '\n', 'b']] 3900).2 = []) := by
  decide

/-- C8 (amended): `flush_alert_buffer_global` hands every buffered message
to the transport exactly once and in order — the strings handed to `send`
are the `"\n\n"`-joins of consecutive batches whose concatenation equals
the original message sequence — and it leaves the buffer empty afterwards.
(Splitting the sent strings on `"\n\n"` recovers the messages only when no
message contains the joiner, which the counterexample shows is not
guaranteed.) -/
theorem C8_flush_exactly_once (buffer : List Msg) (maxLen : Nat) :
    (flush_alert_buffer_global buffer maxLen).1 =
      (flushBatches buffer maxLen).map joinBatch ∧
    (flushBatches buffer maxLen).flatten = buffer ∧
    (flush_alert_buffer_global buffer maxLen).2 = [] :=
  ⟨rfl, flushBatches_flatten buffer maxLen, flush_clears buffer maxLen⟩

/-! ## Bisection lemmas -/

/-- The bisection loop's result stays within `[lo, hi]`, for any fuel and
any list (no sortedness needed). -/
theorem bisectGo_bounds (a : List ℚ) (x : ℚ) :
    ∀ (fuel lo hi : Nat), lo ≤ hi →
      lo ≤ bisectGo a x fuel lo hi ∧ bisectGo a x fuel lo hi ≤ hi := by
  intro fuel
  induction fuel with
  | zero => intro lo hi h; simp [bisectGo]; omega
  | succ n ih =>
    intro lo hi h
    simp only [bisectGo]
    split
    · next hlt =>
      split
      · have := ih ((lo + hi) / 2 + 1) hi (by omega)
        omega
      · have := ih lo ((lo + hi) / 2) (by omega)
        omega
    · omega

/-- Sorted lists are monotone under positional access. -/
theorem sorted_getD_mono {a : List ℚ} (hs : List.Sorted (· ≤ ·) a)
    {i j : Nat} (hij : i ≤ j) (hj : j < a.length) :
    a.getD i 0 ≤ a.getD j 0 := by
  rcases Nat.lt_or_ge i j with hlt | hge
  · have hi : i < a.length := lt_trans hlt hj
    rw [List.getD_eq_getElem a 0 hi, List.getD_eq_getElem a 0 hj]
    have := hs.rel_get_of_lt (a := ⟨i, hi⟩) (b := ⟨j, hj⟩) hlt
    simpa [List.get_eq_getElem] using this
  · have : i = j := le_antisymm hij hge
    subst this
    exact le_refl _

/-- Loop invariant of CPython's `bisect_left` on a sorted list: with enough
fuel, everything strictly before the result is `< x` and everything from
the result on is `≥ x`. -/
theorem bisectGo_spec (a : List ℚ) (x : ℚ) (hs : List.Sorted (· ≤ ·) a) :
    ∀ (fuel lo hi : Nat), hi - lo ≤ fuel → lo ≤ hi → hi ≤ a.length →
      (∀ i, i < lo → a.getD i 0 < x) →
      (∀ i, hi ≤ i → i < a.length → ¬ a.getD i 0 < x) →
      (∀ i, i < bisectGo a x fuel lo hi → a.getD i 0 < x) ∧
      (∀ i, bisectGo a x fuel lo hi ≤ i → i < a.length → ¬ a.getD i 0 < x) := by
  intro fuel
  induction fuel with
  | zero =>
    intro lo hi hfuel hle hlen hlow hhigh
    have : lo = hi := by omega
    subst this
    simp only [bisectGo]
    exact ⟨hlow, hhigh⟩
  | succ n ih =>
    intro lo hi hfuel hle hlen hlow hhigh
    simp only [bisectGo]
    split
    · next hlt =>
      split
      · next hmid =>
        refine ih ((lo + hi) / 2 + 1) hi (by omega) (by omega) hlen ?_ hhigh
        intro i hi'
        have hmle : a.getD i 0 ≤ a.getD ((lo + hi) / 2) 0 :=
          sorted_getD_mono hs (by omega) (by omega)
        exact lt_of_le_of_lt hmle hmid
      · next hmid =>
        refine ih lo ((lo + hi) / 2) (by omega) (by omega) (by omega) hlow ?_
        intro i hi' hilen
        have hmle : a.getD ((lo + hi) / 2) 0 ≤ a.getD i 0 :=
          sorted_getD_mono hs (by omega) hilen
        intro hcon
        exact hmid (lt_of_le_of_lt hmle hcon)
    · next hnlt =>
      have : lo = hi := by omega
      subst this
      exact ⟨hlow, hhigh⟩

/-- The result of `bisect_left` never exceeds the list length. -/
theorem bisect_left_le (a : List ℚ) (x : ℚ) : bisect_left a x ≤ a.length :=
  (bisectGo_bounds a x a.length 0 a.length (Nat.zero_le _)).2

/-- Characterization of `bisect_left` on a sorted list: it is the leftmost
insertion point for `x`. -/
theorem bisect_left_spec (a : List ℚ) (x : ℚ) (hs : List.Sorted (· ≤ ·) a) :
    (∀ i, i < bisect_left a x → a.getD i 0 < x) ∧
    (∀ i, bisect_left a x ≤ i → i < a.length → ¬ a.getD i 0 < x) := by
  have := bisectGo_spec a x hs a.length 0 a.length (by omega) (by omega)
    (le_refl _) (by omega) (by intro i h1 h2; omega)
  exact this

/-- Strictly sorted lists are strictly monotone under positional access. -/
theorem sorted_getD_strict {a : List ℚ} (hs : List.Sorted (· < ·) a)
    {i j : Nat} (hij : i < j) (hj : j < a.length) :
    a.getD i 0 < a.getD j 0 := by
  have hi : i < a.length := lt_trans hij hj
  rw [List.getD_eq_getElem a 0 hi, List.getD_eq_getElem a 0 hj]
  have := hs.rel_get_of_lt (a := ⟨i, hi⟩) (b := ⟨j, hj⟩) hij
  simpa [List.get_eq_getElem] using this

/-! ## C1 -/

/-- C1: on a non-empty chain whose contracts have strictly ascending
`strikePrice`, `find_closest_strike` returns a contract of the chain whose
strike (`strikePrice / 100`) minimizes the absolute distance to the target;
below the smallest strike it returns the first contract, at or above the
largest it returns the last. -/
theorem C1_find_closest_strike_minimizes (chain : List Contract) (target : ℚ)
    (hne : chain ≠ [])
    (hsorted : List.Sorted (· < ·) (chain.map Contract.strikePrice)) :
    ∃ c, find_closest_strike chain target = some c ∧ c ∈ chain ∧
      (∀ c' ∈ chain, |strikeOf c - target| ≤ |strikeOf c' - target|) ∧
      (target < strikeOf (chain.head hne) → c = chain.head hne) ∧
      (strikeOf (chain.getLast hne) ≤ target → c = chain.getLast hne) := by
  have hsa : List.Sorted (· < ·) (chain.map strikeOf) := by
    have h1 : ∀ q r : ℚ, q < r → q / 100 < r / 100 := by
      intro q r h; linarith
    have h2 := List.Pairwise.map (fun q : ℚ => q / 100)
      (fun q r hqr => h1 q r hqr) hsorted
    simpa [List.map_map, Function.comp] using h2
  set a := chain.map strikeOf with ha
  have hsle : List.Sorted (· ≤ ·) a := hsa.imp (fun h => le_of_lt h)
  have hlen : a.length = chain.length := by simp [ha]
  have hpos : 0 < chain.length := List.length_pos.mpr hne
  obtain ⟨hlow, hhigh⟩ := bisect_left_spec a target hsle
  set p := bisect_left a target with hpdef
  have hple : p ≤ a.length := bisect_left_le a target
  have hget : ∀ (i : Nat) (h : i < chain.length), a.getD i 0 = strikeOf chain[i] := by
    intro i h
    rw [List.getD_eq_getElem a 0 (by omega)]
    simp [ha]
  by_cases hp0 : p = 0
  · -- target at or below the smallest strike: the first contract is returned
    refine ⟨chain.head hne, ?_, List.head_mem hne, ?_, fun _ => rfl, ?_⟩
    · simp only [find_closest_strike, ← ha, ← hpdef, hp0, if_pos]
      exact List.head?_eq_head hne
    · intro c' hc'
      obtain ⟨⟨i, hi⟩, rfl⟩ := List.mem_iff_get.mp hc'
      have h0 : ¬ a.getD 0 0 < target := hhigh 0 (by omega) (by omega)
      have hmono : a.getD 0 0 ≤ a.getD i 0 := sorted_getD_mono hsle (Nat.zero_le i) (by omega)
      rw [List.head_eq_getElem, List.get_eq_getElem, ← hget 0 hpos, ← hget i hi]
      rw [abs_of_nonneg (by linarith [not_lt.mp h0]), abs_of_nonneg (by linarith [not_lt.mp h0])]
      linarith
    · intro hlast
      by_cases hone : chain.length = 1
      · simp [List.head_eq_getElem, List.getLast_eq_getElem, hone]
      · exfalso
        have hstrict : a.getD 0 0 < a.getD (chain.length - 1) 0 :=
          sorted_getD_strict hsa (by omega) (by omega)
        have h0 : ¬ a.getD 0 0 < target := hhigh 0 (by omega) (by omega)
        rw [List.getLast_eq_getElem, ← hget (chain.length - 1) (by omega)] at hlast
        linarith [not_lt.mp h0]
  · by_cases hpn : p = a.length
    · -- target above the largest strike: the last contract is returned
      refine ⟨chain.getLast hne, ?_, List.getLast_mem hne, ?_, ?_, fun _ => rfl⟩
      · simp only [find_closest_strike, ← ha, ← hpdef]
        rw [if_neg hp0, if_pos hpn]
        exact List.getLast?_eq_getLast chain hne
      · intro c' hc'
        obtain ⟨⟨i, hi⟩, rfl⟩ := List.mem_iff_get.mp hc'
        have hix : a.getD i 0 < target := hlow i (by omega)
        have hnx : a.getD (chain.length - 1) 0 < target := hlow (chain.length - 1) (by omega)
        have hmono : a.getD i 0 ≤ a.getD (chain.length - 1) 0 :=
          sorted_getD_mono hsle (by omega) (by omega)
        rw [List.getLast_eq_getElem, List.get_eq_getElem,
          ← hget (chain.length - 1) (by omega), ← hget i hi]
        rw [abs_of_nonpos (by linarith), abs_of_nonpos (by linarith)]
        linarith
      · intro hh
        exfalso
        have h0x : a.getD 0 0 < target := hlow 0 (by omega)
        rw [List.head_eq_getElem, ← hget 0 hpos] at hh
        linarith
    · -- interior insertion point: the closer of the two neighbours wins
      have hplt : p < a.length := by omega
      have hbm : p - 1 < chain.length := by omega
      have ham : p < chain.length := by omega
      have hbx : a.getD (p - 1) 0 < target := hlow (p - 1) (by omega)
      have hax : target ≤ a.getD p 0 := not_lt.mp (hhigh p (le_refl p) (by omega))
      have heq : find_closest_strike chain target =
          (if |strikeOf chain[p - 1] - target| ≤ |strikeOf chain[p] - target|
           then some chain[p - 1] else some chain[p]) := by
        simp only [find_closest_strike, ← ha, ← hpdef]
        rw [if_neg hp0, if_neg hpn]
        rw [List.getElem?_eq_getElem hbm, List.getElem?_eq_getElem ham]
      have hminB : ∀ (i : Nat) (hi : i < chain.length), i < p →
          |strikeOf chain[p - 1] - target| ≤ |strikeOf chain[i] - target| := by
        intro i hi hip
        have hix : a.getD i 0 < target := hlow i hip
        have hmono : a.getD i 0 ≤ a.getD (p - 1) 0 :=
          sorted_getD_mono hsle (by omega) (by omega)
        rw [← hget (p - 1) hbm, ← hget i hi]
        rw [abs_of_nonpos (by linarith), abs_of_nonpos (by linarith)]
        linarith
      have hminA : ∀ (i : Nat) (hi : i < chain.length), p ≤ i →
          |strikeOf chain[p] - target| ≤ |strikeOf chain[i] - target| := by
        intro i hi hip
        have hmono : a.getD p 0 ≤ a.getD i 0 := sorted_getD_mono hsle hip (by omega)
        rw [← hget p ham, ← hget i hi]
        rw [abs_of_nonneg (by linarith), abs_of_nonneg (by linarith)]
        linarith
      have hheadcon : target < strikeOf (chain.head hne) → False := by
        intro hh
        have h0x : a.getD 0 0 < target := hlow 0 (by omega)
        rw [List.head_eq_getElem, ← hget 0 hpos] at hh
        linarith
      by_cases hcmp : |strikeOf chain[p - 1] - target| ≤ |strikeOf chain[p] - target|
      · refine ⟨chain[p - 1], ?_, List.getElem_mem hbm, ?_,
          fun hh => absurd hh (fun hh => hheadcon hh), ?_⟩
        · rw [heq, if_pos hcmp]
        · intro c' hc'
          obtain ⟨⟨i, hi⟩, rfl⟩ := List.mem_iff_get.mp hc'
          rw [List.get_eq_getElem]
          rcases Nat.lt_or_ge i p with hip | hip
          · exact hminB i hi hip
          · exact le_trans hcmp (hminA i hi hip)
        · intro hlast
          exfalso
          rw [List.getLast_eq_getElem, ← hget (chain.length - 1) (by omega)] at hlast
          have hmono : a.getD p 0 ≤ a.getD (chain.length - 1) 0 :=
            sorted_getD_mono hsle (by omega) (by omega)
          have hApt : a.getD p 0 = target := le_antisymm (by linarith) hax
          rw [← hget (p - 1) hbm, ← hget p ham] at hcmp
          rw [abs_of_nonpos (by linarith), abs_of_nonneg (by linarith)] at hcmp
          linarith
      · refine ⟨chain[p], ?_, List.getElem_mem ham, ?_,
          fun hh => absurd hh (fun hh => hheadcon hh), ?_⟩
        · rw [heq, if_neg hcmp]
        · intro c' hc'
          obtain ⟨⟨i, hi⟩, rfl⟩ := List.mem_iff_get.mp hc'
          rw [List.get_eq_getElem]
          rcases Nat.lt_or_ge i p with hip | hip
          · exact le_trans (le_of_lt (not_le.mp hcmp)) (hminB i hi hip)
          · exact hminA i hi hip
        · intro hlast
          rw [List.getLast_eq_getElem, ← hget (chain.length - 1) (by omega)] at hlast
          have hmono : a.getD p 0 ≤ a.getD (chain.length - 1) 0 :=
            sorted_getD_mono hsle (by omega) (by omega)
          have hpn1 : p = chain.length - 1 := by
            by_contra hc
            have hstrict : a.getD p 0 < a.getD (chain.length - 1) 0 :=
              sorted_getD_strict hsa (by omega) (by omega)
            linarith
          rw [List.getLast_eq_getElem]
          simp only [hpn1]

/-- Witness for C1 at a concrete two-contract chain with target 14. -/
theorem C1_witness :
    (([⟨1000, none, none⟩, ⟨2000, none, none⟩] : List Contract) ≠ []) ∧
    (List.Sorted (· < ·)
      (([⟨1000, none, none⟩, ⟨2000, none, none⟩] : List Contract).map
        Contract.strikePrice)) ∧
    ∃ c, find_closest_strike [⟨1000, none, none⟩, ⟨2000, none, none⟩] 14 = some c ∧
      c ∈ ([⟨1000, none, none⟩, ⟨2000, none, none⟩] : List Contract) ∧
      ∀ c' ∈ ([⟨1000, none, none⟩, ⟨2000, none, none⟩] : List Contract),
        |strikeOf c - 14| ≤ |strikeOf c' - 14| := by
  refine ⟨by decide, by decide, ?_⟩
  obtain ⟨c, h1, h2, h3, -, -⟩ :=
    C1_find_closest_strike_minimizes [⟨1000, none, none⟩, ⟨2000, none, none⟩] 14
      (by decide) (by decide)
  exact ⟨c, h1, h2, h3⟩

/-! ## C10 -/

/-- C10: `find_closest_strike` requires a non-empty chain — on the empty
chain it reaches the `option_chain[0]` access with nothing there (modelled
as `none`, the `IndexError`), and on any non-empty chain every access it
performs (indices `0`, `-1`, `pos - 1`, `pos`) is in bounds, so it returns
a contract. -/
theorem C10_index_safety :
    (∀ target : ℚ, find_closest_strike [] target = none) ∧
    ∀ (chain : List Contract) (target : ℚ), chain ≠ [] →
      (find_closest_strike chain target).isSome = true := by
  constructor
  · intro t; rfl
  · intro chain target hne
    simp only [find_closest_strike]
    set a := chain.map strikeOf with ha
    set p := bisect_left a target with hpdef
    have hple : p ≤ a.length := bisect_left_le a target
    have hlen : a.length = chain.length := by simp [ha]
    have h0 : 0 < chain.length := List.length_pos.mpr hne
    by_cases hp0 : p = 0
    · rw [if_pos hp0]
      simp [List.head?_eq_head hne]
    · rw [if_neg hp0]
      by_cases hpn : p = a.length
      · rw [if_pos hpn]
        simp [List.getLast?_eq_getLast chain hne]
      · rw [if_neg hpn]
        have h1 : p - 1 < chain.length := by omega
        have h2 : p < chain.length := by omega
        rw [List.getElem?_eq_getElem h1, List.getElem?_eq_getElem h2]
        show (if |strikeOf chain[p - 1] - target| ≤ |strikeOf chain[p] - target|
          then some chain[p - 1] else some chain[p]).isSome = true
        split <;> rfl

/-- Witness for C10's non-emptiness part at a one-contract chain. -/
theorem C10_witness :
    (([⟨1000, none, none⟩] : List Contract) ≠ []) ∧
    (find_closest_strike [⟨1000, none, none⟩] 5).isSome = true :=
  ⟨by decide, C10_index_safety.2 [⟨1000, none, none⟩] 5 (by decide)⟩

/-! ## C3 -/

/-- The claim C3 as stated is false: on a successfully fetched chain whose
nearest-to-put-target contract has no put side, the logging f-string of
lines 163-167 raises before any threshold check, so even though the
selected call contract clears both thresholds (OI 1000 > 50, premium
200 · 100 = 20000 > 4000) no alert is appended. -/
theorem C3_counterexample :
    (process_expiry testState testExpiry (some (testPage [testContractNoPut]))).2.1.buffer
      = testState.buffer ∧
    (process_expiry testState testExpiry (some (testPage [testContractNoPut]))).2.2
      = some PyErr.typeError ∧
    find_closest_strike [testContractNoPut] ((1095 / 1000 : ℚ) * testState.ltp)
      = some testContractNoPut ∧
    testState.min_oi < 1000 ∧
    testState.min_premium < effectiveLot testState * 100 := by
  refine ⟨?_, ?_, ?_, by norm_num [testState], ?_⟩ <;>
    norm_num [process_expiry, fetch_page_json, buildUrl, find_closest_strike,
      bisect_left, bisectGo, testState, testExpiry, testContractNoPut, testPage,
      effectiveLot, strikeOf]

/-- C3 (amended): for every expiry whose fetch succeeds with a parsed,
non-empty chain, and whose selected put contract carries put-side data and
selected call contract carries call-side data, `process_expiry` runs
fetch → parse → nearest-strike selection → threshold check → buffer append
in that order, and an alert for the selected put (resp. call) contract is
appended iff its open interest strictly exceeds `min_oi` and its premium
(effective `premium_lot_size` times the option's last traded price)
strictly exceeds `min_premium`. (Without the side-data hypotheses the
logging line raises and nothing is appended, per the counterexample.) -/
theorem C3_process_expiry_pipeline (st : ScraperState) (expiry : Msg)
    (http : Option (HttpPage (List Contract))) (chain : List Contract)
    (cp cc : Contract) (peS ceS : Side)
    (hfetch : (fetch_page_json (List Contract) st.stock_id (some expiry) http).2.2
      = .ok (some chain))
    (hput : find_closest_strike chain ((905 / 1000 : ℚ) * st.ltp) = some cp)
    (hcall : find_closest_strike chain ((1095 / 1000 : ℚ) * st.ltp) = some cc)
    (hpe : cp.pe = some peS) (hce : cc.ce = some ceS) :
    process_expiry st expiry http =
      ([Step.fetch, Step.parse, Step.select, Step.check] ++
         (if st.min_oi < peS.oi.getD 0 ∧
             st.min_premium < effectiveLot st * peS.ltp.getD 0
          then [Step.append] else []) ++
         (if st.min_oi < ceS.oi.getD 0 ∧
             st.min_premium < effectiveLot st * ceS.ltp.getD 0
          then [Step.append] else []),
       { st with
         url := buildUrl st.stock_id (some expiry)
         premium_lot_size := some (effectiveLot st)
         buffer :=
           (st.buffer ++
             (if st.min_oi < peS.oi.getD 0 ∧
                 st.min_premium < effectiveLot st * peS.ltp.getD 0
              then [renderAlert st.stock_name st.ltp expiry peS.longDisplayName
                      (effectiveLot st * peS.ltp.getD 0) (effectiveLot st)
                      (peS.ltp.getD 0) (peS.oi.getD 0)
                      (buildUrl st.stock_id (some expiry))]
              else [])) ++
           (if st.min_oi < ceS.oi.getD 0 ∧
               st.min_premium < effectiveLot st * ceS.ltp.getD 0
            then [renderAlert st.stock_name st.ltp expiry ceS.longDisplayName
                    (effectiveLot st * ceS.ltp.getD 0) (effectiveLot st)
                    (ceS.ltp.getD 0) (ceS.oi.getD 0)
                    (buildUrl st.stock_id (some expiry))]
            else []) },
       none) := by
  simp only [process_expiry]
  rw [hfetch]
  simp only
  rw [hput, hcall]
  simp only
  rw [hpe, hce]
  have hurl : (fetch_page_json (List Contract) st.stock_id (some expiry) http).1
      = buildUrl st.stock_id (some expiry) := rfl
  have hel : effectiveLot { st with url := buildUrl st.stock_id (some expiry) }
      = effectiveLot st := rfl
  simp [hurl, hel, List.append_assoc]
  split_ifs <;> simp [List.append_assoc]

/-- Witness for C3 (amended) at a one-contract chain carrying both sides:
both thresholds clear, so both alerts are appended after the four pipeline
stages. -/
theorem C3_witness :
    (fetch_page_json (List Contract) testState.stock_id (some testExpiry)
        (some (testPage [testContractFull]))).2.2 = .ok (some [testContractFull]) ∧
    find_closest_strike [testContractFull] ((905 / 1000 : ℚ) * testState.ltp)
      = some testContractFull ∧
    find_closest_strike [testContractFull] ((1095 / 1000 : ℚ) * testState.ltp)
      = some testContractFull ∧
    testContractFull.pe = some testPutSide ∧
    testContractFull.ce = some testCallSide ∧
    (process_expiry testState testExpiry (some (testPage [testContractFull]))).1 =
      [Step.fetch, Step.parse, Step.select, Step.check, Step.append, Step.append] ∧
    (process_expiry testState testExpiry (some (testPage [testContractFull]))).2.2
      = none := by
  have hput : find_closest_strike [testContractFull]
      ((905 / 1000 : ℚ) * testState.ltp) = some testContractFull := by
    norm_num [find_closest_strike, bisect_left, bisectGo, testState,
      testContractFull, strikeOf]
  have hcall : find_closest_strike [testContractFull]
      ((1095 / 1000 : ℚ) * testState.ltp) = some testContractFull := by
    norm_num [find_closest_strike, bisect_left, bisectGo, testState,
      testContractFull, strikeOf]
  refine ⟨by decide, hput, hcall, by decide, by decide, ?_, ?_⟩
  · rw [C3_process_expiry_pipeline testState testExpiry
      (some (testPage [testContractFull])) [testContractFull]
      testContractFull testContractFull testPutSide testCallSide
      (by decide) hput hcall (by decide) (by decide)]
    norm_num [testState, testPutSide, testCallSide, effectiveLot]
  · rw [C3_process_expiry_pipeline testState testExpiry
      (some (testPage [testContractFull])) [testContractFull]
      testContractFull testContractFull testPutSide testCallSide
      (by decide) hput hcall (by decide) (by decide)]

/-! ## C4 -/

/-- C4: `TelegramAlert.send` fails soft: for every message and every
outcome of the underlying HTTP POST (exception raised or any status code),
it never lets an exception escape, and it logs the failure. -/
theorem C4_send_fails_soft (chat_id message : Msg) (post : PostOutcome) :
    (TelegramAlert_send chat_id message post).2 = none ∧
    (∀ e, post = .exn e →
      (TelegramAlert_send chat_id message post).1 =
        [.logError ("Alert error: ".toList ++ e)]) ∧
    (∀ status body, post = .resp status body → status ≠ 200 →
      (TelegramAlert_send chat_id message post).1 =
        [.logError ("Alert failed: ".toList ++ body)]) := by
  refine ⟨?_, ?_, ?_⟩
  · cases post with
    | exn e => rfl
    | resp s b =>
      simp only [TelegramAlert_send]
      split <;> rfl
  · intro e he
    subst he
    rfl
  · intro status body hp hs
    subst hp
    simp [TelegramAlert_send, hs]

/-- Witness for C4 at a concrete raised POST. -/
theorem C4_witness :
    (TelegramAlert_send ("cid".toList) ("msg".toList) (.exn ("boom".toList))).2 = none ∧
    (TelegramAlert_send ("cid".toList) ("msg".toList) (.exn ("boom".toList))).1 =
      [.logError ("Alert error: ".toList ++ "boom".toList)] :=
  ⟨(C4_send_fails_soft ("cid".toList) ("msg".toList) (.exn ("boom".toList))).1,
   (C4_send_fails_soft ("cid".toList) ("msg".toList) (.exn ("boom".toList))).2.1
     ("boom".toList) rfl⟩

/-! ## C5 -/

/-- C5: `fetch_page_json` returns the JSON parsed from the text of the
`__NEXT_DATA__` script element, and returns the (falsy) empty dict without
raising both when the HTTP request fails and when no such script element
is present. -/
theorem C5_fetch_extracts_payload (α : Type) (stock_id : Msg)
    (expiry : Option Msg) :
    ((fetch_page_json α stock_id expiry none).2.2 = .ok none) ∧
    (∀ pg : HttpPage α, pg.nextData = none →
      (fetch_page_json α stock_id expiry (some pg)).2.2 = .ok none) ∧
    (∀ (pg : HttpPage α) (v : Option α), pg.nextData = some (.parsed v) →
      (fetch_page_json α stock_id expiry (some pg)).2.2 = .ok v) := by
  refine ⟨rfl, ?_, ?_⟩
  · intro pg h
    simp [fetch_page_json, h]
  · intro pg v h
    simp [fetch_page_json, h]

/-- Witness for C5 at concrete pages. -/
theorem C5_witness :
    ((fetch_page_json (List Contract) ("nifty".toList) none none).2.2 = .ok none) ∧
    ((fetch_page_json (List Contract) ("nifty".toList) none (some ⟨none⟩)).2.2
      = .ok none) ∧
    ((fetch_page_json (List Contract) ("nifty".toList) none
        (some (testPage [testContractFull]))).2.2 = .ok (some [testContractFull])) :=
  ⟨(C5_fetch_extracts_payload (List Contract) ("nifty".toList) none).1,
   (C5_fetch_extracts_payload (List Contract) ("nifty".toList) none).2.1 ⟨none⟩ rfl,
   (C5_fetch_extracts_payload (List Contract) ("nifty".toList) none).2.2
     (testPage [testContractFull]) (some [testContractFull]) rfl⟩

/-! ## C6 -/

/-- C6: every invocation of `fetch_page_json` issues exactly one HTTP GET,
to `BASE_URL + stock_id` with `?expiry=` appended when an expiry is given,
whatever the outcome — in particular a failed request is never retried. -/
theorem C6_one_request_per_call (α : Type) (stock_id : Msg)
    (expiry : Option Msg) (http : Option (HttpPage α)) :
    (fetch_page_json α stock_id expiry http).2.1 =
      [BASE_URL ++ stock_id ++
        (match expiry with
         | none => []
         | some e => "?expiry=".toList ++ e)] ∧
    ((fetch_page_json α stock_id expiry http).2.1).length = 1 := by
  exact ⟨rfl, rfl⟩

/-! ## C9 -/

/-- C9: when `initialize_stock_data` fails with its `RuntimeError` (falsy
payload, or a required key missing), `run` sends exactly one failure
message via the alert manager and returns normally, processing no expiry
and leaving the alert buffer untouched. -/
theorem C9_run_init_failure (st : ScraperState) (w : World) (f : InitFail)
    (hfail : (initialize_stock_data st.stock_id w.mainHttp).2 = .runtimeError f) :
    run st w =
      ([.sendMsg (renderInitFail st.stock_id f)],
       { st with url := (initialize_stock_data st.stock_id w.mainHttp).1 },
       none) := by
  have hpair : initialize_stock_data st.stock_id w.mainHttp =
      ((initialize_stock_data st.stock_id w.mainHttp).1, .runtimeError f) := by
    rw [← hfail]
  rw [run, hpair]

/-- Witness for C9: a world whose main-page request fails. -/
theorem C9_witness :
    ((initialize_stock_data testState.stock_id
        (World.mk none (fun _ => none)).mainHttp).2 = .runtimeError .noData) ∧
    run testState (World.mk none (fun _ => none)) =
      ([.sendMsg (renderInitFail testState.stock_id .noData)],
       { testState with
          url := (initialize_stock_data testState.stock_id
            (World.mk none (fun _ => none)).mainHttp).1 },
       none) :=
  ⟨by decide,
   C9_run_init_failure testState (World.mk none (fun _ => none)) .noData (by decide)⟩

/-! ## C7 -/

/-- Driver views of a scraper's `run` events are direct sends only: never a
flush send, never a start/done marker. -/
theorem toDrv_filterMap_props (revs : List RunEvent) :
    (∀ ev ∈ revs.filterMap toDrv, isFlushSend ev = false) ∧
    (revs.filterMap toDrv).filterMap startOf = [] ∧
    (revs.filterMap toDrv).filterMap doneOf = [] := by
  refine ⟨?_, ?_, ?_⟩
  · intro ev hev
    rcases List.mem_filterMap.mp hev with ⟨re, -, h⟩
    cases re with
    | sendMsg m => simp [toDrv] at h; rw [← h]; rfl
    | procExpiry e => simp [toDrv] at h
  · rw [List.filterMap_eq_nil_iff]
    intro ev hev
    rcases List.mem_filterMap.mp hev with ⟨re, -, h⟩
    cases re with
    | sendMsg m => simp [toDrv] at h; rw [← h]; rfl
    | procExpiry e => simp [toDrv] at h
  · rw [List.filterMap_eq_nil_iff]
    intro ev hev
    rcases List.mem_filterMap.mp hev with ⟨re, -, h⟩
    cases re with
    | sendMsg m => simp [toDrv] at h; rw [← h]; rfl
    | procExpiry e => simp [toDrv] at h

/-- Decomposition of the driver loop when it runs to completion: its trace
is the starting events, then the per-ticker segments in list order (one
start and one done marker per remaining ticker, never a flush send), then
exactly the sends of the final global flush; the final buffer is what the
flush leaves. -/
theorem driverLoop_decomp (worlds : Msg → World) :
    ∀ (rest : List (Msg × List ℚ)) (evs : List DrvEvent) (buf : List Msg),
      (driverLoop worlds rest evs buf).crashed = none →
      ∃ evs2 buf2,
        (driverLoop worlds rest evs buf).trace =
          (evs ++ evs2) ++
            (flush_alert_buffer_global buf2 3900).1.map DrvEvent.sendFlush ∧
        (∀ ev ∈ evs2, isFlushSend ev = false) ∧
        evs2.filterMap startOf = rest.map Prod.fst ∧
        evs2.filterMap doneOf = rest.map Prod.fst ∧
        (driverLoop worlds rest evs buf).buffer =
          (flush_alert_buffer_global buf2 3900).2 := by
  intro rest
  induction rest with
  | nil =>
    intro evs buf _
    refine ⟨[], buf, by simp [driverLoop], by simp, by simp, by simp, rfl⟩
  | cons tq rest ih =>
    obtain ⟨t, qty⟩ := tq
    intro evs buf hok
    rcases hrun : (run (mkScraper t (driverLot t qty) (driverMinPremium t qty)
        50 true buf) (worlds t)).2.2 with - | e
    · have hstep : driverLoop worlds ((t, qty) :: rest) evs buf =
          driverLoop worlds rest
            (evs ++ (DrvEvent.start t ::
              ((run (mkScraper t (driverLot t qty) (driverMinPremium t qty)
                  50 true buf) (worlds t)).1.filterMap toDrv) ++
              [DrvEvent.done t]))
            (run (mkScraper t (driverLot t qty) (driverMinPremium t qty)
              50 true buf) (worlds t)).2.1.buffer := by
        simp [driverLoop, hrun]
      rw [hstep] at hok ⊢
      obtain ⟨evs2, buf2, h1, h2, h3, h4, h5⟩ := ih _ _ hok
      obtain ⟨hfm1, hfm2, hfm3⟩ := toDrv_filterMap_props
        (run (mkScraper t (driverLot t qty) (driverMinPremium t qty)
          50 true buf) (worlds t)).1
      refine ⟨(DrvEvent.start t ::
          ((run (mkScraper t (driverLot t qty) (driverMinPremium t qty)
              50 true buf) (worlds t)).1.filterMap toDrv) ++
          [DrvEvent.done t]) ++ evs2, buf2, ?_, ?_, ?_, ?_, h5⟩
      · rw [h1]
        simp [List.append_assoc]
      · intro ev hev
        simp only [List.mem_append, List.mem_cons, List.mem_singleton,
          List.not_mem_nil, or_false] at hev
        rcases hev with ((rfl | hev) | rfl) | hev
        · rfl
        · exact hfm1 ev hev
        · rfl
        · exact h2 ev hev
      · simp [List.filterMap_append, List.filterMap_cons, startOf, hfm2, h3]
      · simp [List.filterMap_append, List.filterMap_cons, doneOf, hfm3, h4]
    · exfalso
      have : (driverLoop worlds ((t, qty) :: rest) evs buf).crashed = some e := by
        simp [driverLoop, hrun]
      rw [this] at hok
      exact Option.noConfusion hok

/-- C7: the driver visits the fixed ticker list in order, one scraper per
ticker (one start and one done marker each); whenever it completes, its
trace is all the scraper-phase events followed by the sends of the final
global flush — so no buffered alert reaches the transport before every
scraper has finished — the flushed batches cover the whole accumulated
buffer, and the global buffer ends empty. -/
theorem C7_driver_order (worlds : Msg → World)
    (hok : (driver worlds).crashed = none) :
    ∃ evs buf,
      (driver worlds).trace =
        evs ++ (flush_alert_buffer_global buf 3900).1.map DrvEvent.sendFlush ∧
      (∀ ev ∈ evs, isFlushSend ev = false) ∧
      evs.filterMap startOf = trackers_qty.map Prod.fst ∧
      evs.filterMap doneOf = trackers_qty.map Prod.fst ∧
      (flushBatches buf 3900).flatten = buf ∧
      (driver worlds).buffer = [] := by
  obtain ⟨evs2, buf2, h1, h2, h3, h4, h5⟩ :=
    driverLoop_decomp worlds trackers_qty [] [] hok
  refine ⟨evs2, buf2, by simpa using h1, h2, h3, h4,
    flushBatches_flatten buf2 3900, ?_⟩
  show (driverLoop worlds trackers_qty [] []).buffer = []
  rw [h5, flush_clears]

/-- Witness for C7: a world where every request fails, so every scraper
fails soft and the driver completes. -/
theorem C7_witness :
    ((driver (fun _ => World.mk none (fun _ => none))).crashed = none) ∧
    ∃ evs buf,
      (driver (fun _ => World.mk none (fun _ => none))).trace =
        evs ++ (flush_alert_buffer_global buf 3900).1.map DrvEvent.sendFlush ∧
      (∀ ev ∈ evs, isFlushSend ev = false) ∧
      evs.filterMap startOf = trackers_qty.map Prod.fst ∧
      evs.filterMap doneOf = trackers_qty.map Prod.fst ∧
      (flushBatches buf 3900).flatten = buf ∧
      (driver (fun _ => World.mk none (fun _ => none))).buffer = [] :=
  ⟨by decide, C7_driver_order (fun _ => World.mk none (fun _ => none)) (by decide)⟩

end OptionWriter
